import Mathlib

/-!
Verification of the port-inventory core of Docker-Port-Manager
(src/backend/server.js) against its natural-language specification.

The JavaScript source is shallowly embedded:
* JS numbers produced by `parseInt` are modelled by `JsNum` (`nan` or an
  unbounded integer; the ports involved are far below 2^53, so JS float
  precision is irrelevant).
* The data supplied by the Docker runtime (`listContainers` plus
  `container.inspect().NetworkSettings.Ports`) is modelled by
  `RawContainer`: `Ports = none` models a null/absent binding table, and an
  entry value of `none` models a `"80/tcp": null` entry.
* JS `Set` insertion order is modelled by an insertion-ordered
  duplicate-free list; `Array.from(set).sort((a, b) => a - b)` is modelled
  by an insertion sort whose comparator treats a comparison involving NaN
  as "leave in place" (ECMAScript leaves the order implementation-defined
  for the inconsistent comparator that NaN induces; every ordering theorem
  below therefore carries the hypothesis that all ports parsed).
-/

/-- Result of JS `parseInt`: either NaN or an integer. -/
inductive JsNum where
  | nan : JsNum
  | int : Int → JsNum
deriving DecidableEq, Repr

/-- True iff the JS number is an actual integer (not NaN). -/
def JsNum.isInt : JsNum → Bool
  | .nan => false
  | .int _ => true

/-- True iff the JS number is an integer in the valid TCP port range. -/
def JsNum.isPortInt : JsNum → Bool
  | .nan => false
  | .int n => decide (1 ≤ n ∧ n ≤ 65535)

/-- Whitespace skipped by JS `parseInt` (the forms relevant here). -/
def isJsSpace (c : Char) : Bool :=
  c = ' ' ∨ c = '\t' ∨ c = '\n' ∨ c = '\r'

/-- Numeric value of a hexadecimal digit character, if it is one. -/
def charHexVal (c : Char) : Option Nat :=
  if '0' ≤ c ∧ c ≤ '9' then some (c.toNat - '0'.toNat)
  else if 'a' ≤ c ∧ c ≤ 'f' then some (c.toNat - 'a'.toNat + 10)
  else if 'A' ≤ c ∧ c ≤ 'F' then some (c.toNat - 'A'.toNat + 10)
  else none

/-- Longest prefix of digits valid in the given base, as digit values. -/
def digitSpan (base : Nat) : List Char → List Nat
  | [] => []
  | c :: cs =>
    match charHexVal c with
    | some v => if v < base then v :: digitSpan base cs else []
    | none => []

/-- Value of a digit-value list read in the given base. -/
def natOfDigits (base : Nat) (ds : List Nat) : Nat :=
  ds.foldl (fun a d => a * base + d) 0

/-- JS `parseInt(s)` with no radix argument: skip leading whitespace, read
an optional sign, detect an `0x`/`0X` prefix (hexadecimal), then take the
longest digit prefix; NaN when no digit is found. -/
def jsParseInt (s : String) : JsNum :=
  let l := s.data.dropWhile isJsSpace
  match l with
  | '-' :: rest => jsParseIntBody (-1) rest
  | '+' :: rest => jsParseIntBody 1 rest
  | rest => jsParseIntBody 1 rest
where
  jsParseIntBody (sign : Int) (l : List Char) : JsNum :=
    let (base, l') : Nat × List Char :=
      match l with
      | '0' :: 'x' :: rest => (16, rest)
      | '0' :: 'X' :: rest => (16, rest)
      | rest => (10, rest)
    match digitSpan base l' with
    | [] => JsNum.nan
    | ds => JsNum.int (sign * natOfDigits base ds)

/-- One element of a `NetworkSettings.Ports` host-binding list, as supplied
by the runtime: both fields are strings; `HostIp = ""` models an
empty/absent value (falsy in JS). -/
structure RawBinding where
  HostPort : String
  HostIp : String
deriving DecidableEq, Repr

/-- One container as seen through `listContainers` (Id, Names, Image,
Status) merged with its `inspect().NetworkSettings.Ports` table.
`Ports = none` models a null/absent table; an entry value `none` models a
null host-binding list (e.g. `"80/tcp": null`); the association list keeps
the JS object key insertion order. -/
structure RawContainer where
  Id : String
  Names : List String
  Image : String
  Status : String
  Ports : Option (List (String × Option (List RawBinding)))
deriving DecidableEq, Repr

/-- `containerData.Names[0].replace('/', '')`: JS `String.replace` with a
string pattern removes only the FIRST occurrence. -/
def removeFirstSlash : List Char → List Char
  | [] => []
  | c :: cs => if c = '/' then cs else c :: removeFirstSlash cs

/-- Normalized container name as computed by the source. -/
def normalizeName (s : String) : String :=
  String.mk (removeFirstSlash s.data)

/-- One element of a response `ports` array:
`{ containerPort, hostPort: parseInt(binding.HostPort), hostIp: binding.HostIp || '0.0.0.0' }`. -/
structure PortEntry where
  containerPort : String
  hostPort : JsNum
  hostIp : String
deriving DecidableEq, Repr

/-- One element of the response `containers` array. -/
structure ContainerInfo where
  id : String
  name : String
  image : String
  status : String
  ports : List PortEntry
deriving DecidableEq, Repr

/-- The `/api/ports` response body. -/
structure Inventory where
  usedPorts : List JsNum
  containers : List ContainerInfo
deriving DecidableEq, Repr

/-- Port entries contributed by one `Ports` table entry: nothing when the
host-binding list is null (`if (hostBindings)`), otherwise one `PortEntry`
per binding in order. -/
def entryBindings (e : String × Option (List RawBinding)) : List PortEntry :=
  match e.2 with
  | none => []
  | some bs =>
    bs.map fun b =>
      ⟨e.1, jsParseInt b.HostPort, if b.HostIp = "" then "0.0.0.0" else b.HostIp⟩

/-- The `containerPorts` array built for one container: empty when the
table is null, otherwise the entries' bindings flattened in table order. -/
def effBindings (c : RawContainer) : List PortEntry :=
  match c.Ports with
  | none => []
  | some entries => (entries.map entryBindings).flatten

/-- JS `Set.add` on an insertion-ordered duplicate-free list (`Set` uses
SameValueZero, under which NaN equals NaN, so `JsNum` equality is the right
notion). -/
def insertSet (l : List JsNum) (x : JsNum) : List JsNum :=
  if x ∈ l then l else l ++ [x]

/-- The `usedPorts` set accumulated binding-by-binding across all
containers in enumeration order (containers later omitted from the
response still pass through this loop, contributing nothing). -/
def collectPorts (cs : List RawContainer) : List JsNum :=
  (((cs.map effBindings).flatten).map (·.hostPort)).foldl insertSet []

/-- Comparator model for `.sort((a, b) => a - b)`: ascending on integers;
a comparison whose JS result would be NaN reports "do not reorder". -/
def jsNumLe (a b : JsNum) : Bool :=
  match a, b with
  | .int x, .int y => decide (x ≤ y)
  | _, _ => true

/-- Insert into a sorted list according to `jsNumLe`. -/
def insortNum (x : JsNum) : List JsNum → List JsNum
  | [] => [x]
  | y :: ys => if jsNumLe x y then x :: y :: ys else y :: insortNum x ys

/-- Model of `Array.from(set).sort((a, b) => a - b)` (insertion sort; on
all-integer input this is the unique ascending reordering, which is all
the theorems below rely on). -/
def sortNums (l : List JsNum) : List JsNum :=
  l.foldr insortNum []

/-- JS `id.substring(0, 12)`. -/
def take12 (s : String) : String :=
  String.mk (s.data.take 12)

/-- The `containerInfo` record pushed for a container (pushed only when
its `ports` list is non-empty). -/
def recordOf (c : RawContainer) : ContainerInfo :=
  ⟨take12 c.Id, normalizeName (c.Names.headD ""), c.Image, c.Status, effBindings c⟩

/-- The `GET /api/ports` handler body after the runtime snapshot has been
obtained: sorted deduplicated used ports, plus records for the containers
whose binding list is non-empty. -/
def buildInventory (cs : List RawContainer) : Inventory :=
  ⟨sortNums (collectPorts cs),
   (cs.filter fun c => !(effBindings c).isEmpty).map recordOf⟩

/-- Strict ascending order on JS numbers (only integers are comparable). -/
def jsNumLt (a b : JsNum) : Prop :=
  match a, b with
  | .int x, .int y => x < y
  | _, _ => False

/-- Sample snapshot used by the witnesses: a web container publishing 8080
and a database publishing 5432 and 5433. -/
def demoWeb : RawContainer :=
  ⟨"1234567890abcdef", ["/web"], "nginx:latest", "Up 3 hours",
   some [("8080/tcp", some [⟨"8080", ""⟩])]⟩

/-- Second sample container. -/
def demoDb : RawContainer :=
  ⟨"fedcba0987654321", ["/db"], "postgres:16", "Up 2 hours",
   some [("5432/tcp", some [⟨"5432", "127.0.0.1"⟩]),
         ("5433/tcp", some [⟨"5433", ""⟩])]⟩

/-- Sample snapshot. -/
def demoSnapshot : List RawContainer :=
  [demoWeb, demoDb]

/-- The `usedBy` object of a check response. -/
structure UsedBy where
  container : String
  containerPort : String
deriving DecidableEq, Repr

/-- Outcome of the `GET /api/ports/:port/check` handler: `invalid` is the
400 `Invalid port number` response, `serverError` the 500 response from the
catch block (runtime unreachable), `ok` the 200 body. -/
inductive CheckOutcome where
  | invalid : CheckOutcome
  | serverError : CheckOutcome
  | ok : Int → Bool → Option UsedBy → CheckOutcome
deriving DecidableEq, Repr

/-- Inner loop of the check handler over one entry's host-binding list:
`parseInt(binding.HostPort) === portToCheck` for some binding. -/
def bindingsHave (p : Int) (bs : List RawBinding) : Bool :=
  bs.any fun b => jsParseInt b.HostPort = JsNum.int p

/-- Middle loop of the check handler: first `Ports` entry (in key order)
with a matching binding; its key becomes `usedBy.containerPort`. Entries
with a null binding list are passed over (`if (hostBindings)`). -/
def scanEntries (p : Int) : List (String × Option (List RawBinding)) → Option String
  | [] => none
  | (cp, hb) :: rest =>
    match hb with
    | some bs => if bindingsHave p bs then some cp else scanEntries p rest
    | none => scanEntries p rest

/-- Outer loop of the check handler: first container (in enumeration
order) owning a matching binding; the `break` cascade is modelled by the
`Option`-returning recursion. A null `Ports` table skips the container. -/
def scanContainers (p : Int) : List RawContainer → Option UsedBy
  | [] => none
  | c :: rest =>
    match c.Ports with
    | some entries =>
      match scanEntries p entries with
      | some cp => some ⟨normalizeName (c.Names.headD ""), cp⟩
      | none => scanContainers p rest
    | none => scanContainers p rest

/-- The `GET /api/ports/:port/check` handler: parse the path parameter
with JS `parseInt`, reject NaN or out-of-range values with the 400
response BEFORE touching the runtime, then scan the snapshot. The
`runtime` argument models `docker.listContainers()` (plus the inspects):
`Except.error` is a runtime failure, answered by the catch block. -/
def checkEndpoint (portParam : String) (runtime : Except String (List RawContainer)) :
    CheckOutcome :=
  match jsParseInt portParam with
  | JsNum.nan => CheckOutcome.invalid
  | JsNum.int p =>
    if p < 1 ∨ p > 65535 then CheckOutcome.invalid
    else
      match runtime with
      | Except.error _ => CheckOutcome.serverError
      | Except.ok cs =>
        match scanContainers p cs with
        | some u => CheckOutcome.ok p false (some u)
        | none => CheckOutcome.ok p true none

/-- Declarative description of the snapshot's host-port multiset: the
`hostPort` of every effective binding of every container, in order. -/
def snapshotHostPorts (cs : List RawContainer) : List JsNum :=
  ((cs.map effBindings).flatten).map (·.hostPort)

/-- Declarative first-match description of `usedBy`: the first container
whose effective bindings contain the port, paired with the
`containerPort` of its first matching binding. -/
def specUsedBy (p : Int) (cs : List RawContainer) : Option UsedBy :=
  (cs.find? fun c => (effBindings c).any fun b => b.hostPort = JsNum.int p).bind
    fun c =>
      ((effBindings c).find? fun b => b.hostPort = JsNum.int p).map
        fun b => ⟨normalizeName (c.Names.headD ""), b.containerPort⟩

/-- JSON values, for modelling `res.json` / `JSON.stringify` (which keeps
object keys whose value is `null`). -/
inductive JVal where
  | jnull : JVal
  | jnum : Int → JVal
  | jbool : Bool → JVal
  | jstr : String → JVal
  | jobj : List (String × JVal) → JVal

/-- Serialization of the `usedBy` value: the JS variable is either `null`
or an object, and `JSON.stringify` keeps a `null`-valued key. -/
def usedByJson : Option UsedBy → JVal
  | none => JVal.jnull
  | some u => JVal.jobj [("container", JVal.jstr u.container),
                         ("containerPort", JVal.jstr u.containerPort)]

/-- The JSON body sent for each check outcome; the 200 body is the literal
`{ port, available: !portInUse, usedBy: usedBy }`, so the `usedBy` key is
always present (as `null` when the port is free). -/
def checkJson : CheckOutcome → JVal
  | CheckOutcome.invalid => JVal.jobj [("error", JVal.jstr "Invalid port number")]
  | CheckOutcome.serverError =>
      JVal.jobj [("error", JVal.jstr "Failed to check port availability")]
  | CheckOutcome.ok p a u =>
      JVal.jobj [("port", JVal.jnum p), ("available", JVal.jbool a),
                 ("usedBy", usedByJson u)]

/-- The value drawn at attempt index `i`:
`Math.floor(Math.random() * (9999 - 3000 + 1)) + 3000`, where `rand i` is
the i-th value returned by `Math.random()` (a rational in `[0, 1)`). -/
def drawAt (rand : Nat → ℚ) (i : Nat) : Int :=
  Rat.floor (rand i * ((9999 : ℚ) - 3000 + 1)) + 3000

/-- The `do { randomPort = ...; attempts++ } while (usedPorts.has(randomPort)
&& attempts < maxAttempts)` loop, returning the final `(randomPort,
attempts)`. `i` is the value of `attempts` at the top of the iteration;
the structural fuel `rem` is initialised to `maxAttempts`, which keeps the
recursion faithful: the `rem = 0` branch is only reached with
`i ≥ maxAttempts`, where the loop condition is false anyway. -/
def genLoopAux (used : List JsNum) (rand : Nat → ℚ) (maxAttempts : Nat) :
    Nat → Nat → Int × Nat
  | i, 0 => (drawAt rand i, i + 1)
  | i, rem + 1 =>
    if JsNum.int (drawAt rand i) ∈ used ∧ i + 1 < maxAttempts then
      genLoopAux used rand maxAttempts (i + 1) rem
    else (drawAt rand i, i + 1)

/-- The `GET /api/ports/random` handler: rebuild the used-port set from
the snapshot, run the bounded rejection-sampling loop with the constants
3000–9999 and `maxAttempts = 100` from the source, and fail with the 500
exhaustion response when `attempts >= maxAttempts`. A runtime failure is
answered by the catch block with a distinct message. -/
def randomEndpoint (runtime : Except String (List RawContainer)) (rand : Nat → ℚ) :
    Except String (Int × Bool) :=
  match runtime with
  | Except.error _ => Except.error "Failed to get random port"
  | Except.ok cs =>
    let used := collectPorts cs
    let r := genLoopAux used rand 100 0 100
    if r.2 ≥ 100 then Except.error "Could not find available port"
    else Except.ok (r.1, true)

/-- Membership in the model of `Set.add`. -/
theorem mem_insertSet {a x : JsNum} {l : List JsNum} :
    a ∈ insertSet l x ↔ a ∈ l ∨ a = x := by
  unfold insertSet
  by_cases h : x ∈ l
  · simp only [if_pos h]
    constructor
    · exact Or.inl
    · rintro (ha | rfl)
      · exact ha
      · exact h
  · simp [if_neg h]

/-- `Set.add` keeps the backing list duplicate-free. -/
theorem nodup_insertSet {x : JsNum} {l : List JsNum} (h : l.Nodup) :
    (insertSet l x).Nodup := by
  unfold insertSet
  by_cases hx : x ∈ l
  · simpa [if_pos hx]
  · simp only [if_neg hx]
    exact List.Nodup.append h (List.nodup_singleton x) (by simpa using hx)

/-- Membership after folding `Set.add` over a list of values. -/
theorem mem_foldl_insertSet {a : JsNum} :
    ∀ (l acc : List JsNum), a ∈ List.foldl insertSet acc l ↔ a ∈ acc ∨ a ∈ l := by
  intro l
  induction l with
  | nil => simp
  | cons x xs ih =>
    intro acc
    simp only [List.foldl_cons, ih, mem_insertSet, List.mem_cons]
    tauto

/-- Folding `Set.add` preserves duplicate-freeness. -/
theorem nodup_foldl_insertSet :
    ∀ (l acc : List JsNum), acc.Nodup → (List.foldl insertSet acc l).Nodup := by
  intro l
  induction l with
  | nil => intro acc h; simpa using h
  | cons x xs ih =>
    intro acc h
    exact ih _ (nodup_insertSet h)

/-- The used-port set contains exactly the host ports of the snapshot's
effective bindings. -/
theorem mem_collectPorts {x : JsNum} {cs : List RawContainer} :
    x ∈ collectPorts cs ↔ x ∈ snapshotHostPorts cs := by
  unfold collectPorts snapshotHostPorts
  rw [mem_foldl_insertSet]
  simp

/-- The used-port set is duplicate-free. -/
theorem nodup_collectPorts (cs : List RawContainer) : (collectPorts cs).Nodup :=
  nodup_foldl_insertSet _ _ List.nodup_nil

/-- Sorted insertion produces a permutation of consing. -/
theorem insortNum_perm (x : JsNum) :
    ∀ l : List JsNum, List.Perm (insortNum x l) (x :: l) := by
  intro l
  induction l with
  | nil => simp [insortNum]
  | cons y ys ih =>
    unfold insortNum
    by_cases h : jsNumLe x y
    · simp [h]
    · simp only [h, if_neg, Bool.false_eq_true, not_false_eq_true]
      exact List.Perm.trans (List.Perm.cons y ih) (List.Perm.swap x y ys)

/-- The sort model permutes its input. -/
theorem sortNums_perm : ∀ l : List JsNum, List.Perm (sortNums l) l := by
  intro l
  induction l with
  | nil => simp [sortNums]
  | cons x xs ih =>
    have hd : sortNums (x :: xs) = insortNum x (sortNums xs) := rfl
    rw [hd]
    exact List.Perm.trans (insortNum_perm x _) (List.Perm.cons x ih)

/-- Membership is unchanged by the sort model. -/
theorem mem_sortNums {a : JsNum} {l : List JsNum} : a ∈ sortNums l ↔ a ∈ l :=
  (sortNums_perm l).mem_iff

/-- The sort model preserves duplicate-freeness. -/
theorem nodup_sortNums {l : List JsNum} (h : l.Nodup) : (sortNums l).Nodup :=
  ((sortNums_perm l).nodup_iff).mpr h

/-- The comparator is total. -/
theorem jsNumLe_total (a b : JsNum) : jsNumLe a b = true ∨ jsNumLe b a = true := by
  cases a with
  | nan => exact Or.inl rfl
  | int x =>
    cases b with
    | nan => exact Or.inl rfl
    | int y =>
      simp only [jsNumLe, decide_eq_true_eq]
      omega

/-- The comparator is transitive on integer values. -/
theorem jsNumLe_trans {a b c : JsNum} (hb : b.isInt = true)
    (hab : jsNumLe a b = true) (hbc : jsNumLe b c = true) : jsNumLe a c = true := by
  cases a with
  | nan => rfl
  | int x =>
    cases c with
    | nan => rfl
    | int z =>
      cases b with
      | nan => simp [JsNum.isInt] at hb
      | int y =>
        simp only [jsNumLe, decide_eq_true_eq] at hab hbc ⊢
        omega

/-- Sorted insertion preserves sortedness on all-integer lists. -/
theorem pairwise_insortNum {x : JsNum} (hx : x.isInt = true) :
    ∀ {l : List JsNum}, (∀ a ∈ l, a.isInt = true) →
      l.Pairwise (fun a b => jsNumLe a b = true) →
      (insortNum x l).Pairwise (fun a b => jsNumLe a b = true) := by
  intro l
  induction l with
  | nil => intro _ _; simp [insortNum]
  | cons y ys ih =>
    intro hints hp
    have hy : y.isInt = true := hints y (List.mem_cons_self y ys)
    have hys : ∀ a ∈ ys, a.isInt = true := fun a ha =>
      hints a (List.mem_cons_of_mem y ha)
    rw [List.pairwise_cons] at hp
    unfold insortNum
    by_cases h : jsNumLe x y
    · simp only [h, if_pos]
      rw [List.pairwise_cons]
      constructor
      · intro z hz
        rcases List.mem_cons.mp hz with rfl | hz'
        · exact h
        · exact jsNumLe_trans hy h (hp.1 z hz')
      · exact List.pairwise_cons.mpr hp
    · simp only [h, Bool.false_eq_true, if_neg, not_false_eq_true]
      rw [List.pairwise_cons]
      constructor
      · intro z hz
        have hz' : z ∈ x :: ys := ((insortNum_perm x ys).mem_iff).mp hz
        rcases List.mem_cons.mp hz' with rfl | h2
        · rcases jsNumLe_total z y with h' | h'
          · exact absurd h' h
          · exact h'
        · exact hp.1 z h2
      · exact ih hys hp.2

/-- The sort model yields a `jsNumLe`-sorted list on all-integer input. -/
theorem pairwise_sortNums :
    ∀ {l : List JsNum}, (∀ a ∈ l, a.isInt = true) →
      (sortNums l).Pairwise (fun a b => jsNumLe a b = true) := by
  intro l
  induction l with
  | nil => intro _; simp [sortNums]
  | cons x xs ih =>
    intro hints
    have hx : x.isInt = true := hints x (List.mem_cons_self x xs)
    have hxs : ∀ a ∈ xs, a.isInt = true := fun a ha =>
      hints a (List.mem_cons_of_mem x ha)
    have hd : sortNums (x :: xs) = insortNum x (sortNums xs) := rfl
    rw [hd]
    refine pairwise_insortNum hx ?_ (ih hxs)
    intro a ha
    exact hxs a (mem_sortNums.mp ha)

/-- On a duplicate-free all-integer list, the sort model is strictly
ascending. -/
theorem pairwise_lt_sortNums {l : List JsNum}
    (hints : ∀ a ∈ l, a.isInt = true) (hnd : l.Nodup) :
    (sortNums l).Pairwise jsNumLt := by
  have hle := pairwise_sortNums hints
  have hnd' : (sortNums l).Nodup := nodup_sortNums hnd
  have hand := List.Pairwise.and hle hnd'
  refine hand.imp_of_mem ?_
  intro a b ha hb hab
  have hai : a.isInt = true := hints a (mem_sortNums.mp ha)
  have hbi : b.isInt = true := hints b (mem_sortNums.mp hb)
  cases a with
  | nan => simp [JsNum.isInt] at hai
  | int x =>
    cases b with
    | nan => simp [JsNum.isInt] at hbi
    | int y =>
      have h1 : x ≤ y := by
        have := hab.1
        simpa [jsNumLe] using this
      have h2 : x ≠ y := by
        intro h
        exact hab.2 (by rw [h])
      simp only [jsNumLt]
      omega

/-- Host ports of the snapshot's effective bindings, described through the
flattened structure. -/
theorem mem_snapshotHostPorts {x : JsNum} {cs : List RawContainer} :
    x ∈ snapshotHostPorts cs ↔ ∃ c ∈ cs, ∃ b ∈ effBindings c, b.hostPort = x := by
  unfold snapshotHostPorts
  simp only [List.mem_map, List.mem_flatten]
  constructor
  · rintro ⟨b, ⟨l, ⟨⟨c, hc, rfl⟩, hb⟩⟩, rfl⟩
    exact ⟨c, hc, b, hb, rfl⟩
  · rintro ⟨c, hc, b, hb, rfl⟩
    exact ⟨b, ⟨effBindings c, ⟨⟨c, hc, rfl⟩, hb⟩⟩, rfl⟩

/-- A host port occurs in the snapshot's bindings iff it occurs in a
binding of one of the container records actually returned (a container
owning a binding is never dropped, since its list is then non-empty). -/
theorem mem_snapshotHostPorts_iff_containers {x : JsNum} {cs : List RawContainer} :
    x ∈ snapshotHostPorts cs ↔
      ∃ r ∈ (buildInventory cs).containers, ∃ b ∈ r.ports, b.hostPort = x := by
  rw [mem_snapshotHostPorts]
  unfold buildInventory
  simp only [List.mem_map, List.mem_filter]
  constructor
  · rintro ⟨c, hc, b, hb, rfl⟩
    refine ⟨recordOf c, ⟨c, ⟨hc, ?_⟩, rfl⟩, b, hb, rfl⟩
    cases h : (effBindings c).isEmpty with
    | false => rfl
    | true =>
      exfalso
      rw [List.isEmpty_iff] at h
      rw [h] at hb
      exact absurd hb (List.not_mem_nil b)
  · rintro ⟨r, ⟨c, ⟨hc, _⟩, rfl⟩, b, hb, rfl⟩
    exact ⟨c, hc, b, hb, rfl⟩

/-- C1: for every snapshot (with the host-port strings integer-parseable,
as the runtime guarantees), the inventory's `usedPorts` is strictly
ascending — hence deduplicated — and contains exactly the `hostPort`
values appearing across the bindings of the returned containers. -/
theorem usedPorts_sorted_dedup_union (cs : List RawContainer)
    (h : ∀ c ∈ cs, ∀ b ∈ effBindings c, b.hostPort.isInt = true) :
    (buildInventory cs).usedPorts.Pairwise jsNumLt ∧
    ∀ x, x ∈ (buildInventory cs).usedPorts ↔
      ∃ r ∈ (buildInventory cs).containers, ∃ b ∈ r.ports, b.hostPort = x := by
  have hup : (buildInventory cs).usedPorts = sortNums (collectPorts cs) := rfl
  have hints : ∀ a ∈ collectPorts cs, a.isInt = true := by
    intro a ha
    rcases mem_snapshotHostPorts.mp (mem_collectPorts.mp ha) with ⟨c, hc, b, hb, rfl⟩
    exact h c hc b hb
  constructor
  · rw [hup]
    exact pairwise_lt_sortNums hints (nodup_collectPorts cs)
  · intro x
    rw [hup, mem_sortNums, mem_collectPorts]
    exact mem_snapshotHostPorts_iff_containers

/-- C1 witness: the invariant holds at the sample snapshot, whose host
ports all parse. -/
theorem usedPorts_sorted_dedup_union_witness :
    (∀ c ∈ demoSnapshot, ∀ b ∈ effBindings c, b.hostPort.isInt = true) ∧
    ((buildInventory demoSnapshot).usedPorts.Pairwise jsNumLt ∧
     ∀ x, x ∈ (buildInventory demoSnapshot).usedPorts ↔
       ∃ r ∈ (buildInventory demoSnapshot).containers, ∃ b ∈ r.ports, b.hostPort = x) :=
  ⟨by decide, usedPorts_sorted_dedup_union demoSnapshot (by decide)⟩

/-- A table whose entries are all null or empty contributes no bindings. -/
theorem flatten_entryBindings_nil :
    ∀ (entries : List (String × Option (List RawBinding))),
      (∀ e ∈ entries, e.2 = none ∨ e.2 = some []) →
      (entries.map entryBindings).flatten = [] := by
  intro entries
  induction entries with
  | nil => intro _; rfl
  | cons e es ih =>
    intro h
    have he := h e (List.mem_cons_self e es)
    have hes : ∀ e' ∈ es, e'.2 = none ∨ e'.2 = some [] := fun e' he' =>
      h e' (List.mem_cons_of_mem e he')
    rcases he with he | he
    · simp [entryBindings, he, ih hes]
    · simp [entryBindings, he, ih hes]

/-- A container whose binding table is absent, or whose every entry has a
null or empty host-binding list, has an empty effective binding list. -/
theorem effBindings_eq_nil {c : RawContainer}
    (h : c.Ports = none ∨ ∀ e ∈ c.Ports.getD [], e.2 = none ∨ e.2 = some []) :
    effBindings c = [] := by
  cases hp : c.Ports with
  | none => simp [effBindings, hp]
  | some entries =>
    rcases h with h | h
    · rw [hp] at h
      exact absurd h (by simp)
    · rw [hp] at h
      simp only [Option.getD_some] at h
      unfold effBindings
      rw [hp]
      exact flatten_entryBindings_nil entries h

/-- C6: a container whose effective binding list is empty — binding table
absent, or every entry null or empty — does not appear among the returned
containers and contributes nothing to the whole inventory: no returned
record has an empty `ports`, and deleting such a container from the
snapshot leaves the response unchanged. -/
theorem unbound_container_omitted (cs pre post : List RawContainer)
    (c : RawContainer)
    (h : c.Ports = none ∨ ∀ e ∈ c.Ports.getD [], e.2 = none ∨ e.2 = some []) :
    (∀ r ∈ (buildInventory cs).containers, r.ports ≠ []) ∧
    buildInventory (pre ++ c :: post) = buildInventory (pre ++ post) := by
  constructor
  · intro r hr
    have hc : (buildInventory cs).containers =
        (cs.filter fun c' => !(effBindings c').isEmpty).map recordOf := rfl
    rw [hc] at hr
    rcases List.mem_map.mp hr with ⟨c', hc', rfl⟩
    have hf := (List.mem_filter.mp hc').2
    intro hnil
    have hports : (recordOf c').ports = effBindings c' := rfl
    rw [hports] at hnil
    rw [hnil] at hf
    simp at hf
  · have hnil := effBindings_eq_nil h
    have hflat : ((pre ++ c :: post).map effBindings).flatten =
        ((pre ++ post).map effBindings).flatten := by
      simp [hnil]
    have hused : collectPorts (pre ++ c :: post) = collectPorts (pre ++ post) := by
      unfold collectPorts
      rw [hflat]
    have hfilter : ((pre ++ c :: post).filter fun c' => !(effBindings c').isEmpty) =
        ((pre ++ post).filter fun c' => !(effBindings c').isEmpty) := by
      simp [List.filter_append, hnil]
    unfold buildInventory
    rw [hused, hfilter]

/-- Sample container with an exposed-but-unbound port (`"80/tcp": null`). -/
def demoNullEntry : RawContainer :=
  ⟨"00aa00aa00aa", ["/idle"], "busybox", "Exited (0) 2 days ago",
   some [("80/tcp", none)]⟩

/-- C6 witness: the `"80/tcp": null` container is dropped from the sample
snapshot without any other effect. -/
theorem unbound_container_omitted_witness :
    (demoNullEntry.Ports = none ∨
      ∀ e ∈ demoNullEntry.Ports.getD [], e.2 = none ∨ e.2 = some []) ∧
    ((∀ r ∈ (buildInventory demoSnapshot).containers, r.ports ≠ []) ∧
     buildInventory ([demoWeb] ++ demoNullEntry :: [demoDb]) =
       buildInventory ([demoWeb] ++ [demoDb])) :=
  ⟨by decide,
   unbound_container_omitted demoSnapshot [demoWeb] [demoDb] demoNullEntry (by decide)⟩

/-- The check handler's per-entry test agrees with a search over the
entry's emitted port entries. -/
theorem bindingsHave_iff {p : Int} {cp : String} {bs : List RawBinding} :
    bindingsHave p bs = true ↔
      ∃ pe ∈ entryBindings (cp, some bs), pe.hostPort = JsNum.int p := by
  unfold bindingsHave entryBindings
  simp

/-- The entry scan returns the `containerPort` of the first emitted port
entry matching the port. -/
theorem scanEntries_eq_find (p : Int) :
    ∀ entries : List (String × Option (List RawBinding)),
      scanEntries p entries =
        (((entries.map entryBindings).flatten).find?
          fun pe => pe.hostPort = JsNum.int p).map (·.containerPort) := by
  intro entries
  induction entries with
  | nil => rfl
  | cons e rest ih =>
    rcases e with ⟨cp, hb⟩
    cases hb with
    | none =>
      simpa [scanEntries, entryBindings] using ih
    | some bs =>
      by_cases hB : bindingsHave p bs = true
      · have hsome : ∃ pe, (entryBindings (cp, some bs)).find?
            (fun pe => decide (pe.hostPort = JsNum.int p)) = some pe := by
          rcases bindingsHave_iff.mp hB with ⟨pe, hpe, hport⟩
          have : ((entryBindings (cp, some bs)).find?
              (fun pe => decide (pe.hostPort = JsNum.int p))).isSome = true := by
            rw [List.find?_isSome]
            exact ⟨pe, hpe, by simpa using hport⟩
          exact Option.isSome_iff_exists.mp this
        rcases hsome with ⟨pe, hpe⟩
        have hcp : pe.containerPort = cp := by
          have hmem := List.mem_of_find?_eq_some hpe
          unfold entryBindings at hmem
          simp only [List.mem_map] at hmem
          rcases hmem with ⟨b, _, rfl⟩
          rfl
        have hl : scanEntries p ((cp, some bs) :: rest) = some cp := by
          simp [scanEntries, hB]
        rw [hl]
        rw [List.map_cons, List.flatten_cons, List.find?_append, hpe]
        simp [hcp]
      · have hnone : (entryBindings (cp, some bs)).find?
            (fun pe => decide (pe.hostPort = JsNum.int p)) = none := by
          rw [List.find?_eq_none]
          intro pe hpe
          simp only [decide_eq_true_eq]
          intro hport
          exact hB (bindingsHave_iff.mpr ⟨pe, hpe, hport⟩)
        have hl : scanEntries p ((cp, some bs) :: rest) = scanEntries p rest := by
          simp [scanEntries, hB]
        rw [hl, ih]
        rw [List.map_cons, List.flatten_cons, List.find?_append, hnone]
        simp

/-- A container passes the declarative first-match test iff its entry scan
succeeds. -/
theorem scanEntries_isSome_iff_any {p : Int} {c : RawContainer}
    {entries : List (String × Option (List RawBinding))} (hp : c.Ports = some entries) :
    (scanEntries p entries).isSome = true ↔
      ((effBindings c).any fun b => b.hostPort = JsNum.int p) = true := by
  rw [scanEntries_eq_find p entries]
  have heff : effBindings c = (entries.map entryBindings).flatten := by
    unfold effBindings
    rw [hp]
  rw [heff]
  cases hfind : ((entries.map entryBindings).flatten).find?
      (fun pe => decide (pe.hostPort = JsNum.int p)) with
  | none =>
    rw [List.find?_eq_none] at hfind
    simp only [Option.map_none', Option.isSome_none, List.any_eq_true]
    constructor
    · intro h
      exact absurd h (by simp)
    · rintro ⟨b, hb, hport⟩
      exact absurd hport (by simpa using hfind b hb)
  | some pe =>
    have hpred := List.find?_some hfind
    have hmem := List.mem_of_find?_eq_some hfind
    simp only [Option.map_some', Option.isSome_some, true_iff, List.any_eq_true]
    exact ⟨pe, hmem, hpred⟩

/-- The check handler's container scan computes exactly the declarative
first-match `usedBy`. -/
theorem scanContainers_eq_specUsedBy (p : Int) :
    ∀ cs : List RawContainer, scanContainers p cs = specUsedBy p cs := by
  intro cs
  induction cs with
  | nil => rfl
  | cons c rest ih =>
    cases hp : c.Ports with
    | none =>
      have hany : ((effBindings c).any fun b => b.hostPort = JsNum.int p) = false := by
        have heff : effBindings c = [] := by
          unfold effBindings
          rw [hp]
        rw [heff]
        rfl
      rw [show specUsedBy p (c :: rest) = specUsedBy p rest by
        unfold specUsedBy
        rw [List.find?_cons_of_neg _ (by simpa using hany)]]
      rw [← ih]
      simp only [scanContainers, hp]
    | some entries =>
      cases hs : scanEntries p entries with
      | some cp =>
        have hany : ((effBindings c).any fun b => b.hostPort = JsNum.int p) = true := by
          rw [← scanEntries_isSome_iff_any hp, hs]
          rfl
        have hfind := scanEntries_eq_find p entries
        rw [hs] at hfind
        have heff : effBindings c = (entries.map entryBindings).flatten := by
          unfold effBindings
          rw [hp]
        rcases Option.map_eq_some'.mp hfind.symm with ⟨pe, hpe, hcp⟩
        have hrhs : specUsedBy p (c :: rest) =
            some ⟨normalizeName (c.Names.headD ""), cp⟩ := by
          unfold specUsedBy
          rw [List.find?_cons_of_pos _ (by simpa using hany)]
          rw [Option.some_bind, heff, hpe, Option.map_some', hcp]
        rw [hrhs]
        simp only [scanContainers, hp, hs]
      | none =>
        have hany : ((effBindings c).any fun b => b.hostPort = JsNum.int p) = false := by
          have hiff := scanEntries_isSome_iff_any (p := p) hp
          rw [hs] at hiff
          cases hA : (effBindings c).any fun b => b.hostPort = JsNum.int p
          · rfl
          · exact absurd (hiff.mpr hA) (by simp)
        rw [show specUsedBy p (c :: rest) = specUsedBy p rest by
          unfold specUsedBy
          rw [List.find?_cons_of_neg _ (by simpa using hany)]]
        rw [← ih]
        simp only [scanContainers, hp, hs]

/-- The declarative `usedBy` is present exactly when the port occurs in
the snapshot's host ports. -/
theorem specUsedBy_isSome_iff {p : Int} {cs : List RawContainer} :
    (specUsedBy p cs).isSome = true ↔ JsNum.int p ∈ snapshotHostPorts cs := by
  unfold specUsedBy
  rw [mem_snapshotHostPorts]
  cases hf : cs.find? (fun c => (effBindings c).any fun b => b.hostPort = JsNum.int p) with
  | none =>
    rw [List.find?_eq_none] at hf
    simp only [Option.none_bind]
    constructor
    · intro h
      exact absurd h (by simp)
    · rintro ⟨c, hc, b, hb, hport⟩
      have := hf c hc
      simp only [Bool.not_eq_true, List.any_eq_false] at this
      exact absurd hport (by simpa using this b hb)
  | some c =>
    have hpred := List.find?_some hf
    have hmem := List.mem_of_find?_eq_some hf
    simp only [List.any_eq_true, decide_eq_true_eq] at hpred
    rcases hpred with ⟨b, hb, hport⟩
    have hinner : ((effBindings c).find? fun b => b.hostPort = JsNum.int p).isSome = true := by
      rw [List.find?_isSome]
      exact ⟨b, hb, by simpa using hport⟩
    rcases Option.isSome_iff_exists.mp hinner with ⟨pe, hpe⟩
    simp only [Option.some_bind, hpe, Option.map_some', Option.isSome_some, true_iff]
    exact ⟨c, hmem, b, hb, hport⟩

/-- C2: for a parameter parsing to a valid port `p`, the check response is
`available = true` exactly when `p` occurs nowhere among the snapshot's
host-port values, and otherwise carries the normalized name of the first
container in enumeration order owning a matching binding together with the
`containerPort` of its first matching binding (`specUsedBy` is the
declarative first-match description). -/
theorem check_available_iff_free (param : String) (p : Int) (cs : List RawContainer)
    (hparse : jsParseInt param = JsNum.int p) (hrange : 1 ≤ p ∧ p ≤ 65535) :
    checkEndpoint param (Except.ok cs) =
      CheckOutcome.ok p (!decide (JsNum.int p ∈ snapshotHostPorts cs))
        (specUsedBy p cs) := by
  have hcond : ¬(p < 1 ∨ p > 65535) := by omega
  simp only [checkEndpoint, hparse, if_neg hcond]
  rw [scanContainers_eq_specUsedBy]
  cases hu : specUsedBy p cs with
  | some u =>
    have hmem : JsNum.int p ∈ snapshotHostPorts cs := by
      rw [← @specUsedBy_isSome_iff p cs, hu]
      rfl
    simp [hmem]
  | none =>
    have hmem : JsNum.int p ∉ snapshotHostPorts cs := by
      intro hm
      have hsome := specUsedBy_isSome_iff.mpr hm
      rw [hu] at hsome
      exact absurd hsome (by simp)
    simp [hmem]

/-- C2 witness: checking 8080 against the sample snapshot reports it used
by the first matching container. -/
theorem check_available_iff_free_witness :
    jsParseInt "8080" = JsNum.int 8080 ∧ (1 ≤ (8080 : Int) ∧ (8080 : Int) ≤ 65535) ∧
    checkEndpoint "8080" (Except.ok demoSnapshot) =
      CheckOutcome.ok 8080 (!decide (JsNum.int 8080 ∈ snapshotHostPorts demoSnapshot))
        (specUsedBy 8080 demoSnapshot) :=
  ⟨by decide, by decide,
   check_available_iff_free "8080" 8080 demoSnapshot (by decide) (by decide)⟩

/-- The validity test the check handler applies to the parsed parameter:
`parseInt` must give an integer in `[1, 65535]`. -/
def portParamValid (s : String) : Bool :=
  match jsParseInt s with
  | JsNum.nan => false
  | JsNum.int p => decide (1 ≤ p ∧ p ≤ 65535)

/-- C4 counterexample: the parameter `"80abc"` is non-numeric, yet the
handler does not report a validation failure; JS `parseInt` reads the
prefix `80`, validation passes, and the runtime IS consulted — with an
unreachable runtime the response is the 500 server error, not the 400
validation response the claim requires. -/
theorem check_validation_counterexample :
    checkEndpoint "80abc" (Except.error "runtime unreachable") =
      CheckOutcome.serverError ∧
    checkEndpoint "80abc" (Except.error "runtime unreachable") ≠
      CheckOutcome.invalid := by
  decide

/-- C4 amended: for every parameter whose `parseInt` value is NaN or lies
outside `[1, 65535]`, the handler answers with the validation failure
uniformly in the runtime — in particular no runtime interaction can
influence the response (parameters with a numeric prefix such as
`"80abc"` are instead treated as that prefix value). -/
theorem check_validation_short_circuits (param : String)
    (h : portParamValid param = false)
    (runtime : Except String (List RawContainer)) :
    checkEndpoint param runtime = CheckOutcome.invalid := by
  unfold portParamValid at h
  cases hp : jsParseInt param with
  | nan => simp only [checkEndpoint, hp]
  | int p =>
    simp only [hp, decide_eq_false_iff_not] at h
    have hcond : p < 1 ∨ p > 65535 := by omega
    simp only [checkEndpoint, hp, if_pos hcond]

/-- C4 witness: port 70000 is rejected without consulting the (here even
unreachable) runtime. -/
theorem check_validation_short_circuits_witness :
    portParamValid "70000" = false ∧
    checkEndpoint "70000" (Except.error "runtime unreachable") =
      CheckOutcome.invalid :=
  ⟨by decide,
   check_validation_short_circuits "70000" (by decide)
     (Except.error "runtime unreachable")⟩

/-- C8 counterexample: against the empty snapshot port 8080 is available,
yet the serialized response still carries the `usedBy` key (with value
null) — `res.json({ port, available, usedBy: null })` keeps the key — so
the claim that an `available == true` result carries no `usedBy` field is
false of the code. -/
theorem usedBy_field_counterexample :
    checkEndpoint "8080" (Except.ok []) = CheckOutcome.ok 8080 true none ∧
    checkJson (checkEndpoint "8080" (Except.ok [])) =
      JVal.jobj [("port", JVal.jnum 8080), ("available", JVal.jbool true),
                 ("usedBy", JVal.jnull)] :=
  ⟨by decide, rfl⟩

/-- C8 amended: in every 200 check response the `usedBy` VALUE is non-null
exactly when `available == false`; the key itself is always serialized,
null when the port is free. -/
theorem usedBy_nonnull_iff_unavailable (param : String) (cs : List RawContainer)
    (p : Int) (a : Bool) (u : Option UsedBy)
    (h : checkEndpoint param (Except.ok cs) = CheckOutcome.ok p a u) :
    u ≠ none ↔ a = false := by
  cases hp : jsParseInt param with
  | nan =>
    simp only [checkEndpoint, hp] at h
    exact absurd h (by simp)
  | int q =>
    simp only [checkEndpoint, hp] at h
    by_cases hc : q < 1 ∨ q > 65535
    · rw [if_pos hc] at h
      exact absurd h (by simp)
    · rw [if_neg hc] at h
      cases hs : scanContainers q cs with
      | some u' =>
        rw [hs] at h
        injection h with h1 h2 h3
        subst h2
        subst h3
        simp
      | none =>
        rw [hs] at h
        injection h with h1 h2 h3
        subst h2
        subst h3
        simp

/-- C8 amended witness: the sample snapshot's 8080 check has a non-null
`usedBy` and `available = false`. -/
theorem usedBy_nonnull_iff_unavailable_witness :
    (some (⟨"web", "8080/tcp"⟩ : UsedBy) ≠ none ↔ false = false) :=
  usedBy_nonnull_iff_unavailable "8080" demoSnapshot 8080 false
    (some ⟨"web", "8080/tcp"⟩) (by decide)

/-- Removing the first slash is the identity on slash-free strings. -/
theorem removeFirstSlash_of_not_mem :
    ∀ l : List Char, '/' ∉ l → removeFirstSlash l = l := by
  intro l
  induction l with
  | nil => intro _; rfl
  | cons c cs ih =>
    intro h
    simp only [List.mem_cons, not_or] at h
    unfold removeFirstSlash
    rw [if_neg fun hc => h.1 hc.symm, ih h.2]

/-- C9 counterexample: the raw name `"web/app"` does not begin with the
separator, yet the reported name is `"webapp"`, not the unchanged raw
name: JS `replace('/', '')` removes the FIRST occurrence wherever it is. -/
theorem name_normalization_counterexample :
    "web/app".data.head? ≠ some '/' ∧ normalizeName "web/app" = "webapp" ∧
    normalizeName "web/app" ≠ "web/app" := by
  decide

/-- C9 amended: the reported name is the raw first name with its first
`'/'` occurrence removed; in particular a leading separator is removed,
and a name containing no `'/'` is unchanged (a non-leading `'/'` is also
removed, diverging from the claim only on such names). -/
theorem name_strips_first_slash (s : String) :
    (s.data.head? = some '/' → normalizeName s = String.mk s.data.tail) ∧
    ('/' ∉ s.data → normalizeName s = s) := by
  constructor
  · intro h
    cases hd : s.data with
    | nil =>
      rw [hd] at h
      exact absurd h (by simp)
    | cons c cs =>
      rw [hd] at h
      simp only [List.head?_cons, Option.some.injEq] at h
      unfold normalizeName
      rw [hd, h]
      simp [removeFirstSlash]
  · intro h
    unfold normalizeName
    rw [removeFirstSlash_of_not_mem s.data h]

/-- C9 witness: a leading separator is removed; a slash-free name is kept. -/
theorem name_strips_first_slash_witness :
    normalizeName "/web" = String.mk "/web".data.tail ∧ normalizeName "db" = "db" :=
  ⟨(name_strips_first_slash "/web").1 (by decide),
   (name_strips_first_slash "db").2 (by decide)⟩

/-- Every effective binding comes from a raw binding of the container's
table, with `hostPort` its parsed `HostPort` string. -/
theorem effBindings_from_raw {c : RawContainer} {b : PortEntry}
    (hb : b ∈ effBindings c) :
    ∃ e ∈ c.Ports.getD [], ∃ rb ∈ e.2.getD [], b.hostPort = jsParseInt rb.HostPort := by
  unfold effBindings at hb
  cases hp : c.Ports with
  | none =>
    rw [hp] at hb
    exact absurd hb (List.not_mem_nil b)
  | some entries =>
    rw [hp] at hb
    rw [List.mem_flatten] at hb
    rcases hb with ⟨l, hl, hbl⟩
    rcases List.mem_map.mp hl with ⟨e, he, rfl⟩
    unfold entryBindings at hbl
    cases he2 : e.2 with
    | none =>
      rw [he2] at hbl
      exact absurd hbl (List.not_mem_nil b)
    | some bs =>
      rw [he2] at hbl
      rcases List.mem_map.mp hbl with ⟨rb, hrb, rfl⟩
      exact ⟨e, by simpa [hp] using he, rb, by simpa [he2] using hrb, rfl⟩

/-- Sample container whose host port string does not parse. -/
def demoBadPort : RawContainer :=
  ⟨"deadbeefdead", ["/bad"], "img:1", "Up 1 hour",
   some [("80/tcp", some [⟨"abc", ""⟩])]⟩

/-- C5 counterexample: an unparseable `HostPort` string is NOT skipped —
the binding is retained with a NaN `hostPort`, which also enters
`usedPorts`, so not every reported host port is an integer in
`[1, 65535]` (the request still does not fail). -/
theorem unparseable_binding_counterexample :
    buildInventory [demoBadPort] =
      ⟨[JsNum.nan],
       [⟨"deadbeefdead", "bad", "img:1", "Up 1 hour",
         [⟨"80/tcp", JsNum.nan, "0.0.0.0"⟩]⟩]⟩ ∧
    JsNum.nan.isPortInt = false := by
  decide

/-- C5 amended: the inventory request never fails (the builder is total);
when every raw `HostPort` string parses into `[1, 65535]` — which the
runtime guarantees — every host port in `usedPorts` and in every returned
container's bindings is an integer in that range; an unparseable binding
is retained with a NaN host port rather than skipped. -/
theorem hostPorts_in_range (cs : List RawContainer)
    (h : ∀ c ∈ cs, ∀ e ∈ c.Ports.getD [], ∀ rb ∈ e.2.getD [],
      (jsParseInt rb.HostPort).isPortInt = true) :
    (∀ x ∈ (buildInventory cs).usedPorts, x.isPortInt = true) ∧
    (∀ r ∈ (buildInventory cs).containers, ∀ b ∈ r.ports,
      b.hostPort.isPortInt = true) := by
  have hbind : ∀ c ∈ cs, ∀ b ∈ effBindings c, b.hostPort.isPortInt = true := by
    intro c hc b hb
    rcases effBindings_from_raw hb with ⟨e, he, rb, hrb, hport⟩
    rw [hport]
    exact h c hc e he rb hrb
  constructor
  · intro x hx
    have hup : (buildInventory cs).usedPorts = sortNums (collectPorts cs) := rfl
    rw [hup, mem_sortNums, mem_collectPorts] at hx
    rcases mem_snapshotHostPorts.mp hx with ⟨c, hc, b, hb, rfl⟩
    exact hbind c hc b hb
  · intro r hr b hb
    have hcnt : (buildInventory cs).containers =
        (cs.filter fun c' => !(effBindings c').isEmpty).map recordOf := rfl
    rw [hcnt] at hr
    rcases List.mem_map.mp hr with ⟨c, hc, rfl⟩
    have hcmem := (List.mem_filter.mp hc).1
    have hports : (recordOf c).ports = effBindings c := rfl
    rw [hports] at hb
    exact hbind c hcmem b hb

/-- C5 amended witness: the sample snapshot's host ports all parse into
range, and the built inventory reports only such values. -/
theorem hostPorts_in_range_witness :
    (∀ c ∈ demoSnapshot, ∀ e ∈ c.Ports.getD [], ∀ rb ∈ e.2.getD [],
      (jsParseInt rb.HostPort).isPortInt = true) ∧
    ((∀ x ∈ (buildInventory demoSnapshot).usedPorts, x.isPortInt = true) ∧
     (∀ r ∈ (buildInventory demoSnapshot).containers, ∀ b ∈ r.ports,
        b.hostPort.isPortInt = true)) :=
  ⟨by decide, hostPorts_in_range demoSnapshot (by decide)⟩

/-- The executable rational floor agrees with the mathematical floor. -/
theorem ratFloor_eq (q : ℚ) : Rat.floor q = ⌊q⌋ := by
  rw [Rat.floor_def', Rat.floor_def]

/-- Every draw lies in `[3000, 9999]` when `Math.random()` behaves, i.e.
returns values in `[0, 1)`. -/
theorem drawAt_range {rand : Nat → ℚ} (hr : ∀ i, 0 ≤ rand i ∧ rand i < 1)
    (i : Nat) : 3000 ≤ drawAt rand i ∧ drawAt rand i ≤ 9999 := by
  unfold drawAt
  rw [ratFloor_eq]
  have h0 := (hr i).1
  have h1 := (hr i).2
  have hlo : (0 : Int) ≤ ⌊rand i * ((9999 : ℚ) - 3000 + 1)⌋ := by
    apply Int.floor_nonneg.mpr
    have : (0 : ℚ) ≤ (9999 : ℚ) - 3000 + 1 := by norm_num
    exact mul_nonneg h0 this
  have hhi : ⌊rand i * ((9999 : ℚ) - 3000 + 1)⌋ < 7000 := by
    rw [Int.floor_lt]
    have hmul : rand i * ((9999 : ℚ) - 3000 + 1) < 1 * ((9999 : ℚ) - 3000 + 1) := by
      apply mul_lt_mul_of_pos_right h1
      norm_num
    push_cast
    linarith
  omega

/-- What the sampling loop guarantees at exit: the final port is one of
the draws from index `i` on, and if the loop stopped before the attempt
budget then the port is unused. The invariant `maxA ≤ i + rem` is how the
loop is entered (`rem = maxA`, `i = 0`). -/
theorem genLoopAux_spec (used : List JsNum) (rand : Nat → ℚ) (maxA : Nat) :
    ∀ (rem i : Nat), maxA ≤ i + rem →
      ∀ {p : Int} {a : Nat}, genLoopAux used rand maxA i rem = (p, a) →
        (∃ j, i ≤ j ∧ p = drawAt rand j) ∧
        (a < maxA → JsNum.int p ∉ used) := by
  intro rem
  induction rem with
  | zero =>
    intro i hinv p a h
    unfold genLoopAux at h
    injection h with h1 h2
    constructor
    · exact ⟨i, le_refl i, h1.symm⟩
    · intro ha
      omega
  | succ rem ih =>
    intro i hinv p a h
    unfold genLoopAux at h
    by_cases hc : JsNum.int (drawAt rand i) ∈ used ∧ i + 1 < maxA
    · rw [if_pos hc] at h
      rcases ih (i + 1) (by omega) h with ⟨⟨j, hj, hp⟩, hfree⟩
      exact ⟨⟨j, by omega, hp⟩, hfree⟩
    · rw [if_neg hc] at h
      injection h with h1 h2
      constructor
      · exact ⟨i, le_refl i, h1.symm⟩
      · intro ha
        rw [← h1]
        intro hmem
        exact hc ⟨hmem, by omega⟩

/-- C7: whenever the random endpoint succeeds (with a well-behaved
`Math.random()`), the returned port lies in `[3000, 9999]`, is not a
member of the snapshot's used-port set, and the response carries
`available: true`. -/
theorem random_success_free_in_range (cs : List RawContainer) (rand : Nat → ℚ)
    (hr : ∀ i, 0 ≤ rand i ∧ rand i < 1) (out : Int × Bool)
    (h : randomEndpoint (Except.ok cs) rand = Except.ok out) :
    out.2 = true ∧ 3000 ≤ out.1 ∧ out.1 ≤ 9999 ∧
    JsNum.int out.1 ∉ collectPorts cs := by
  simp only [randomEndpoint] at h
  by_cases hcond : (genLoopAux (collectPorts cs) rand 100 0 100).2 ≥ 100
  · rw [if_pos hcond] at h
    exact absurd h (by simp)
  · rw [if_neg hcond] at h
    injection h with hout
    rcases genLoopAux_spec (collectPorts cs) rand 100 100 0 (by norm_num)
        (p := (genLoopAux (collectPorts cs) rand 100 0 100).1)
        (a := (genLoopAux (collectPorts cs) rand 100 0 100).2) rfl with
      ⟨⟨j, _, hp⟩, hfree⟩
    have hfree' := hfree (by omega)
    rcases drawAt_range hr j with ⟨hlo, hhi⟩
    rw [← hout]
    refine ⟨rfl, ?_, ?_, hfree'⟩
    · show (3000 : Int) ≤ (genLoopAux (collectPorts cs) rand 100 0 100).1
      rw [hp]
      exact hlo
    · show (genLoopAux (collectPorts cs) rand 100 0 100).1 ≤ 9999
      rw [hp]
      exact hhi

/-- C7 witness: with the zero randomness source and an empty snapshot the
endpoint returns port 3000, free and available. -/
theorem random_success_free_in_range_witness :
    ((3000 : Int), true).2 = true ∧ (3000 : Int) ≤ ((3000 : Int), true).1 ∧
    ((3000 : Int), true).1 ≤ 9999 ∧
    JsNum.int ((3000 : Int), true).1 ∉ collectPorts [] :=
  random_success_free_in_range [] (fun _ => 0)
    (fun _ => ⟨le_refl 0, zero_lt_one⟩) (3000, true)
    (by simp [randomEndpoint, genLoopAux, drawAt, collectPorts, ratFloor_eq])

/-- A run whose first ninety-nine draws hit used ports always leaves the
loop with `attempts = 100`, whatever the hundredth draw produced. -/
theorem genLoopAux_stuck (used : List JsNum) (rand : Nat → ℚ)
    (hused : ∀ j, j < 99 → JsNum.int (drawAt rand j) ∈ used) :
    ∀ (rem i : Nat), i + rem = 100 → 1 ≤ rem →
      genLoopAux used rand 100 i rem = (drawAt rand 99, 100) := by
  intro rem
  induction rem with
  | zero =>
    intro i h h1
    omega
  | succ rem ih =>
    intro i h h1
    unfold genLoopAux
    cases Nat.eq_zero_or_pos rem with
    | inl hz =>
      subst hz
      have hi : i = 99 := by omega
      subst hi
      rw [if_neg fun hc => absurd hc.2 (by norm_num)]
    | inr hpos =>
      have hi : i < 99 := by omega
      rw [if_pos ⟨hused i hi, by omega⟩]
      exact ih (i + 1) (by omega) hpos

/-- Randomness source for the exhaustion run: ninety-nine draws of 0
(mapping to port 3000) followed by 1/2 (mapping to the free port 6500). -/
def stuckRand : Nat → ℚ :=
  fun i => if i < 99 then 0 else 1 / 2

/-- Sample snapshot occupying exactly port 3000. -/
def demoPort3000 : RawContainer :=
  ⟨"caffecaffeca", ["/dev"], "node:18", "Up 5 minutes",
   some [("3000/tcp", some [⟨"3000", ""⟩])]⟩

/-- C3 (code bug): the hundredth draw is the free port 6500, yet the
endpoint still reports the exhaustion failure — the source's
`if (attempts >= maxAttempts)` check discards a successful final draw, so
exhaustion is NOT reported "iff all 100 draws landed on occupied ports". -/
theorem random_exhaustion_offbyone :
    drawAt stuckRand 99 = 6500 ∧
    JsNum.int (drawAt stuckRand 99) ∉ collectPorts [demoPort3000] ∧
    randomEndpoint (Except.ok [demoPort3000]) stuckRand =
      Except.error "Could not find available port" := by
  have hports : collectPorts [demoPort3000] = [JsNum.int 3000] := by decide
  have hdraw99 : drawAt stuckRand 99 = 6500 := by
    unfold drawAt stuckRand
    rw [if_neg (by norm_num), ratFloor_eq]
    norm_num
  have hdraw0 : ∀ j, j < 99 → drawAt stuckRand j = 3000 := by
    intro j hj
    unfold drawAt stuckRand
    rw [if_pos hj, ratFloor_eq]
    norm_num
  refine ⟨hdraw99, ?_, ?_⟩
  · rw [hports, hdraw99]
    decide
  · simp only [randomEndpoint]
    rw [genLoopAux_stuck (collectPorts [demoPort3000]) stuckRand
        (fun j hj => by rw [hdraw0 j hj, hports]; exact List.mem_singleton.mpr rfl)
        100 0 (by norm_num) (by norm_num)]
    norm_num

/-- Agreement of the first hundred draws forces agreement of the loop
(the recursion never consults a later index: it stops at `attempts =
100`). -/
theorem genLoopAux_first_hundred (used : List JsNum) (r r' : Nat → ℚ)
    (h : ∀ j, j < 100 → r j = r' j) :
    ∀ (rem i : Nat), i < 100 →
      genLoopAux used r 100 i rem = genLoopAux used r' 100 i rem := by
  intro rem
  induction rem with
  | zero =>
    intro i hi
    unfold genLoopAux
    rw [show drawAt r i = drawAt r' i by unfold drawAt; rw [h i hi]]
  | succ rem ih =>
    intro i hi
    unfold genLoopAux
    rw [show drawAt r i = drawAt r' i by unfold drawAt; rw [h i hi]]
    by_cases hc : JsNum.int (drawAt r' i) ∈ used ∧ i + 1 < 100
    · rw [if_pos hc, if_pos hc]
      exact ih (i + 1) hc.2
    · rw [if_neg hc, if_neg hc]

/-- C10: the random endpoint's sampling range and attempt budget are the
fixed literals 3000, 9999 and 100 of `drawAt`/`randomEndpoint` — the
request carries nothing that could change them — and the response is a
function of the snapshot and the first hundred `Math.random()` values
alone: two runs whose sources agree on those values coincide. -/
theorem random_fixed_range_budget (runtime : Except String (List RawContainer))
    (r r' : Nat → ℚ) (h : ∀ j, j < 100 → r j = r' j) :
    randomEndpoint runtime r = randomEndpoint runtime r' := by
  cases runtime with
  | error e => rfl
  | ok cs =>
    simp only [randomEndpoint]
    rw [genLoopAux_first_hundred (collectPorts cs) r r' h 100 0 (by norm_num)]

/-- C10 witness: two sources differing only from index 100 on produce the
same response. -/
theorem random_fixed_range_budget_witness :
    randomEndpoint (Except.ok demoSnapshot) (fun _ => 0) =
      randomEndpoint (Except.ok demoSnapshot)
        (fun i => if i < 100 then 0 else 1 / 2) :=
  random_fixed_range_budget (Except.ok demoSnapshot) (fun _ => 0)
    (fun i => if i < 100 then 0 else 1 / 2)
    (fun j hj => by simp [hj])
